import Mathlib

/-!
# Verification of the recipe-app-api backend

Shallow embedding of the recipe-management backend (Django/DRF application):
the relational data model (users, recipes, tags, ingredients), the
ownership-scoped queryset construction of `recipe/views.py`, the user
registration and token endpoints of `user/views.py`, and the nested
get-or-create label semantics of the recipe serializer.

Conventions:
- Database rows are Lean structures; tables are lists of rows; primary keys
  are `Nat` ids with a next-id counter modelling auto-increment.
- Django querysets are embedded as list computations.  A `filter` across a
  many-to-many relation (`tags__id__in`, `recipe__isnull=False`) performs an
  SQL join and therefore replicates a row once per matching related row;
  `.distinct()` collapses these duplicates.  `order_by` is a sort.
- Python `int(...)` conversion is partial: `Option` models the possible
  `ValueError`; an uncaught exception surfaces as a 500 response.
- HTTP outcomes are the `HttpResult` type with the DRF status codes the
  views produce.
-/

namespace RecipeApp

/-- The characters Python `int(...)` strips around a decimal literal. -/
def isPySpace (c : Char) : Bool :=
  c == ' ' || c == '\t' || c == '\n' || c == '\r' || c == '\x0b' || c == '\x0c'

/-- Value of a non-empty digit sequence, most significant first. -/
def charsToNat (cs : List Char) : Nat :=
  cs.foldl (fun acc c => acc * 10 + (c.toNat - '0'.toNat)) 0

/-- Embedding of Python `int(s)` on the character sequence of `s`: strips
surrounding whitespace, accepts an optional sign followed by one or more
decimal digits, and fails (`ValueError`, i.e. `none`) otherwise. -/
def pyIntChars (cs0 : List Char) : Option Int :=
  let cs := ((cs0.dropWhile isPySpace).reverse.dropWhile isPySpace).reverse
  let signed : Bool × List Char :=
    match cs with
    | '-' :: rest => (true, rest)
    | '+' :: rest => (false, rest)
    | _ => (false, cs)
  if !signed.2.isEmpty && signed.2.all Char.isDigit then
    some (if signed.1 then -(charsToNat signed.2 : Int) else (charsToNat signed.2 : Int))
  else
    none

/-- Python `int(s)` for a string. -/
def pyInt (s : String) : Option Int :=
  pyIntChars s.data

/-- Python `str.split(sep)` for a single-character separator: splitting
the empty string yields one empty token, and consecutive separators yield
empty tokens. -/
def splitOnChar (sep : Char) : List Char → List (List Char)
  | [] => [[]]
  | c :: rest =>
    if c == sep then
      [] :: splitOnChar sep rest
    else
      match splitOnChar sep rest with
      | [] => [[c]]
      | g :: gs => (c :: g) :: gs

/-- `RecipeViewSet._params_to_ints`: `[int(q) for q in qs.split(',')]`.
Any token that is not a decimal integer raises `ValueError` (`none`). -/
def params_to_ints (qs : String) : Option (List Int) :=
  (splitOnChar ',' qs.data).mapM pyIntChars

/-- Python truthiness of `self.request.query_params.get(name)`: the
parameter is falsy when absent (`None`) or the empty string. -/
def truthy : Option String → Bool
  | none => false
  | some s => !s.data.isEmpty

/-- A `core.models.Tag` or `core.models.Ingredient` row.  The two models
are structurally identical (id primary key, owning user foreign key, name),
and the two viewsets share `BaseRecipeAttrViewSet`, so both tables use this
row type. -/
structure Label where
  id : Nat
  user : Nat
  name : String
deriving DecidableEq, Repr

/-- A `core.models.Recipe` row; `tags` and `ingredients` are the sets of
label ids linked through the two many-to-many tables, and `image` is the
stored image payload if any. -/
structure Recipe where
  id : Nat
  user : Nat
  title : String
  time_minutes : Nat
  price : Int
  description : String
  link : String
  image : Option String
  tags : List Nat
  ingredients : List Nat
deriving DecidableEq, Repr

/-- The recipe-side database state: the three tables and the
auto-increment counters of their id columns. -/
structure DB where
  recipes : List Recipe
  tags : List Label
  ingredients : List Label
  nextRecipeId : Nat
  nextTagId : Nat
  nextIngredientId : Nat
deriving DecidableEq, Repr

/-- Database well-formedness guaranteed by the relational engine: primary
keys are unique and below the auto-increment counter. -/
def DB.WF (db : DB) : Prop :=
  (db.recipes.map Recipe.id).Nodup ∧
  (db.tags.map Label.id).Nodup ∧
  (db.ingredients.map Label.id).Nodup ∧
  (∀ r ∈ db.recipes, r.id < db.nextRecipeId) ∧
  (∀ t ∈ db.tags, t.id < db.nextTagId) ∧
  (∀ i ∈ db.ingredients, i.id < db.nextIngredientId)

instance (db : DB) : Decidable db.WF := by
  unfold DB.WF; infer_instance

/-- SQL join performed by `queryset.filter(tags__id__in=tag_id)` (and the
ingredient analogue via `proj`): each recipe row is emitted once per linked
label id that lies in `ids`. -/
def mtmJoinFilter (rs : List Recipe) (proj : Recipe → List Nat) (ids : List Int) :
    List Recipe :=
  rs.flatMap (fun r => ((proj r).filter (fun t => ids.contains (Int.ofNat t))).map (fun _ => r))

/-- One conditional filter step of `RecipeViewSet.get_queryset`:
`if tags: queryset = queryset.filter(tags__id__in=self._params_to_ints(tags))`.
`none` is the uncaught `ValueError` from `_params_to_ints`. -/
def apply_mtm_filter (rs : List Recipe) (proj : Recipe → List Nat)
    (p : Option String) : Option (List Recipe) :=
  if truthy p then
    (params_to_ints (p.getD "")).map (mtmJoinFilter rs proj)
  else
    some rs

/-- `order_by('-id')`: most-recent-first, realised as descending id. -/
def recipeDescId (a b : Recipe) : Prop := b.id ≤ a.id

instance : DecidableRel recipeDescId := fun a b => Nat.decLe b.id a.id

instance : IsTotal Recipe recipeDescId :=
  ⟨fun a b => Nat.le_total b.id a.id⟩

instance : IsTrans Recipe recipeDescId :=
  ⟨fun _ _ _ h1 h2 => Nat.le_trans h2 h1⟩

/-- `queryset.filter(user=self.request.user).order_by('-id').distinct()`:
the tail common to every path of `RecipeViewSet.get_queryset`. -/
def recipeFinal (q : List Recipe) (u : Nat) : List Recipe :=
  ((q.filter (fun r => r.user == u)).insertionSort recipeDescId).dedup

/-- `RecipeViewSet.get_queryset`: applies the optional `tags` and
`ingredients` comma-separated id filters, then
`queryset.filter(user=self.request.user).order_by('-id').distinct()`.
Result is `none` when a filter parameter raises `ValueError`. -/
def get_queryset_recipe (db : DB) (u : Nat) (tagsP ingsP : Option String) :
    Option (List Recipe) :=
  (apply_mtm_filter db.recipes Recipe.tags tagsP).bind fun q1 =>
    (apply_mtm_filter q1 Recipe.ingredients ingsP).map fun q2 =>
      recipeFinal q2 u

/-- `order_by('-name')`: reverse-alphabetical by name. -/
def labelDescName (a b : Label) : Prop := b.name ≤ a.name

instance : DecidableRel labelDescName := fun a b =>
  decidable_of_iff (b.name.toList ≤ a.name.toList) String.le_iff_toList_le.symm

instance : IsTotal Label labelDescName :=
  ⟨fun a b => le_total b.name a.name⟩

instance : IsTrans Label labelDescName :=
  ⟨fun _ _ _ h1 h2 => le_trans h2 h1⟩

/-- SQL join performed by `queryset.filter(recipe__isnull=False)`: each
label row is emitted once per recipe row linked to it (through the
many-to-many column selected by `proj`). -/
def assignedJoin (labels : List Label) (recipes : List Recipe)
    (proj : Recipe → List Nat) : List Label :=
  labels.flatMap (fun t => (recipes.filter (fun r => (proj r).contains t.id)).map (fun _ => t))

/-- `queryset.filter(user=self.request.user).order_by('-name').distinct()`:
the tail common to every path of `BaseRecipeAttrViewSet.get_queryset`. -/
def attrFinal (q : List Label) (u : Nat) : List Label :=
  ((q.filter (fun t => t.user == u)).insertionSort labelDescName).dedup

/-- `BaseRecipeAttrViewSet.get_queryset`:
`bool(int(query_params.get('assigned_only', 0)))` chooses whether to keep
only labels attached to at least one recipe, then
`queryset.filter(user=...).order_by('-name').distinct()`.  The absent
parameter defaults to the integer `0`; a present parameter is a string fed
to `int(...)`, whose `ValueError` is `none`. -/
def get_queryset_attr (labels : List Label) (recipes : List Recipe)
    (proj : Recipe → List Nat) (u : Nat) (assignedP : Option String) :
    Option (List Label) :=
  match (match assignedP with
         | none => some 0
         | some s => pyInt s) with
  | none => none
  | some v =>
    let q := if v != 0 then assignedJoin labels recipes proj else labels
    some (attrFinal q u)

/-- HTTP outcome of a request, with the status codes the DRF views
produce.  `serverError` is an uncaught exception (HTTP 500);
`methodNotAllowed` is DRF dispatch on an HTTP method the viewset maps no
handler to (HTTP 405). -/
inductive HttpResult (α : Type) where
  | ok (body : α)
  | created (body : α)
  | noContent
  | badRequest (errors : List (String × String))
  | notFound
  | methodNotAllowed
  | serverError
deriving DecidableEq, Repr

/-- The HTTP status code of an outcome. -/
def HttpResult.status : HttpResult α → Nat
  | .ok _ => 200
  | .created _ => 201
  | .noContent => 204
  | .badRequest _ => 400
  | .notFound => 404
  | .methodNotAllowed => 405
  | .serverError => 500

/-- DRF `GenericAPIView.get_object` for a detail route: look the pk up in
`get_queryset()`; `get_object_or_404` raises `Http404` (`none`) when no row
of the queryset has that pk. -/
def get_object (qs : List Recipe) (pk : Nat) : Option Recipe :=
  qs.find? (fun r => r.id == pk)

/-- Label-side `get_object`. -/
def get_object_attr (qs : List Label) (pk : Nat) : Option Label :=
  qs.find? (fun t => t.id == pk)

/-- `GET /recipes/` (the `list` action): serializes the queryset. -/
def recipe_list (db : DB) (u : Nat) (tagsP ingsP : Option String) :
    HttpResult (List Recipe) :=
  match get_queryset_recipe db u tagsP ingsP with
  | none => .serverError
  | some qs => .ok qs

/-- `GET /recipes/{pk}/` (the `retrieve` action). -/
def recipe_retrieve (db : DB) (u : Nat) (tagsP ingsP : Option String) (pk : Nat) :
    HttpResult Recipe :=
  match get_queryset_recipe db u tagsP ingsP with
  | none => .serverError
  | some qs =>
    match get_object qs pk with
    | none => .notFound
    | some r => .ok r

/-- `DELETE /recipes/{pk}/` (the `destroy` action): 204 and the row removed
when the pk resolves in the user-scoped queryset, else 404 and the database
untouched. -/
def recipe_destroy (db : DB) (u : Nat) (tagsP ingsP : Option String) (pk : Nat) :
    HttpResult Unit × DB :=
  match get_queryset_recipe db u tagsP ingsP with
  | none => (.serverError, db)
  | some qs =>
    match get_object qs pk with
    | none => (.notFound, db)
    | some r =>
      (.noContent, { db with recipes := db.recipes.filter (fun x => x.id != r.id) })

/-- Modelled from the spec: the recipe serializer's
`_get_or_create_tags` / `_get_or_create_ingredients` helper for a single
name (`recipe/serializer.py` is not under `src/`).  "for each, an existing
user-owned label with that exact name is reused; otherwise a new one is
created — this is a get-or-create-by-name-per-user semantic, not global
dedup."  Returns the linked label, the updated table and the updated
auto-increment counter. -/
def get_or_create_label (labels : List Label) (next : Nat) (u : Nat)
    (name : String) : Label × List Label × Nat :=
  match labels.find? (fun t => t.user == u && t.name == name) with
  | some t => (t, labels, next)
  | none =>
    let t : Label := ⟨next, u, name⟩
    (t, labels ++ [t], next + 1)

/-- Modelled from the spec: folding the per-user get-or-create over the
nested list of label names of a create/update payload.  Returns the linked
label ids in payload order, the updated table and counter. -/
def get_or_create_labels (labels : List Label) (next : Nat) (u : Nat) :
    List String → List Nat × List Label × Nat
  | [] => ([], labels, next)
  | n :: rest =>
    let (t, labels1, next1) := get_or_create_label labels next u n
    let (ids, labels2, next2) := get_or_create_labels labels1 next1 u rest
    (t.id :: ids, labels2, next2)

/-- A recipe create payload with the nested tag/ingredient name lists. -/
structure RecipePayload where
  title : String
  time_minutes : Nat
  price : Int
  description : String
  link : String
  tagNames : List String
  ingredientNames : List String
deriving DecidableEq, Repr

/-- `POST /recipes/` (the `create` action with
`perform_create(serializer.save(user=self.request.user))`): builds the
recipe owned by the requesting user and links each nested tag/ingredient
name through the per-user get-or-create. -/
def recipe_create (db : DB) (u : Nat) (p : RecipePayload) :
    HttpResult Recipe × DB :=
  let (tids, tags1, nt) := get_or_create_labels db.tags db.nextTagId u p.tagNames
  let (iids, ings1, ni) :=
    get_or_create_labels db.ingredients db.nextIngredientId u p.ingredientNames
  let r : Recipe :=
    ⟨db.nextRecipeId, u, p.title, p.time_minutes, p.price, p.description,
      p.link, none, tids, iids⟩
  (.created r,
   { recipes := db.recipes ++ [r], tags := tags1, ingredients := ings1,
     nextRecipeId := db.nextRecipeId + 1, nextTagId := nt, nextIngredientId := ni })

/-- A partial-update payload: absent fields are left unchanged; a present
`tags`/`ingredients` name list replaces the recipe's links through the same
per-user get-or-create. -/
structure RecipeUpdatePayload where
  title : Option String := none
  time_minutes : Option Nat := none
  price : Option Int := none
  description : Option String := none
  link : Option String := none
  tagNames : Option (List String) := none
  ingredientNames : Option (List String) := none
deriving DecidableEq, Repr

/-- `PATCH/PUT /recipes/{pk}/` (the `update`/`partial_update` actions):
resolve the pk in the user-scoped queryset (404 when absent, database
untouched), then apply the serializer update, with nested name lists going
through the per-user get-or-create. -/
def recipe_update (db : DB) (u : Nat) (tagsP ingsP : Option String) (pk : Nat)
    (p : RecipeUpdatePayload) : HttpResult Recipe × DB :=
  match get_queryset_recipe db u tagsP ingsP with
  | none => (.serverError, db)
  | some qs =>
    match get_object qs pk with
    | none => (.notFound, db)
    | some r =>
      let (tids, tags1, nt) :=
        match p.tagNames with
        | none => (r.tags, db.tags, db.nextTagId)
        | some names => get_or_create_labels db.tags db.nextTagId u names
      let (iids, ings1, ni) :=
        match p.ingredientNames with
        | none => (r.ingredients, db.ingredients, db.nextIngredientId)
        | some names =>
          get_or_create_labels db.ingredients db.nextIngredientId u names
      let r2 : Recipe :=
        { r with
          title := p.title.getD r.title,
          time_minutes := p.time_minutes.getD r.time_minutes,
          price := p.price.getD r.price,
          description := p.description.getD r.description,
          link := p.link.getD r.link,
          tags := tids, ingredients := iids }
      (.ok r2,
       { db with
         recipes := db.recipes.map (fun x => if x.id == r.id then r2 else x),
         tags := tags1, ingredients := ings1,
         nextTagId := nt, nextIngredientId := ni })

/-- Modelled from the spec: an image-upload payload together with whether
the image library can decode it (`RecipeImageSerializer` and the image
field validation are not under `src/`; the spec says the payload is
"validated as a decodable image"). -/
structure ImagePayload where
  bytes : String
  decodable : Bool
deriving DecidableEq, Repr

/-- `POST /recipes/{pk}/upload-image/` (`RecipeViewSet.upload_image`):
resolve the recipe via `self.get_object()`, then 200 with the image
replaced when the serializer validates the payload as an image, else 400
with the recipe untouched. -/
def recipe_upload_image (db : DB) (u : Nat) (tagsP ingsP : Option String)
    (pk : Nat) (p : ImagePayload) : HttpResult Recipe × DB :=
  match get_queryset_recipe db u tagsP ingsP with
  | none => (.serverError, db)
  | some qs =>
    match get_object qs pk with
    | none => (.notFound, db)
    | some r =>
      if p.decodable then
        let r2 : Recipe := { r with image := some p.bytes }
        (.ok r2,
         { db with recipes := db.recipes.map (fun x => if x.id == r.id then r2 else x) })
      else
        (.badRequest [("image", "Upload a valid image.")], db)

/-- `GET /tags/` or `GET /ingredients/` (the shared `list` action of
`BaseRecipeAttrViewSet`); `proj` selects the many-to-many column
(`Recipe.tags` for the tag viewset, `Recipe.ingredients` for the
ingredient viewset). -/
def attr_list (labels : List Label) (recipes : List Recipe)
    (proj : Recipe → List Nat) (u : Nat) (assignedP : Option String) :
    HttpResult (List Label) :=
  match get_queryset_attr labels recipes proj u assignedP with
  | none => .serverError
  | some qs => .ok qs

/-- `PATCH /tags/{pk}/` (or ingredients): resolve the pk in the user-scoped
queryset (404 when absent, table untouched), then rename. -/
def attr_update (labels : List Label) (recipes : List Recipe)
    (proj : Recipe → List Nat) (u : Nat) (assignedP : Option String)
    (pk : Nat) (newName : String) : HttpResult Label × List Label :=
  match get_queryset_attr labels recipes proj u assignedP with
  | none => (.serverError, labels)
  | some qs =>
    match get_object_attr qs pk with
    | none => (.notFound, labels)
    | some t =>
      let t2 : Label := { t with name := newName }
      (.ok t2, labels.map (fun x => if x.id == t.id then t2 else x))

/-- `DELETE /tags/{pk}/` (or ingredients). -/
def attr_destroy (labels : List Label) (recipes : List Recipe)
    (proj : Recipe → List Nat) (u : Nat) (assignedP : Option String)
    (pk : Nat) : HttpResult Unit × List Label :=
  match get_queryset_attr labels recipes proj u assignedP with
  | none => (.serverError, labels)
  | some qs =>
    match get_object_attr qs pk with
    | none => (.notFound, labels)
    | some t => (.noContent, labels.filter (fun x => x.id != t.id))

/-- `GET /tags/{pk}/` (or ingredients): `BaseRecipeAttrViewSet` mixes in
only `DestroyModelMixin`, `UpdateModelMixin` and `ListModelMixin` — there
is no `RetrieveModelMixin`, so the router maps no handler to `GET` on the
detail route and DRF dispatch answers 405 Method Not Allowed, regardless of
the database state, the requesting user or the target pk. -/
def attr_retrieve (_labels : List Label) (_u : Nat) (_pk : Nat) :
    HttpResult Label :=
  .methodNotAllowed

/-- A user row: id, email, stored credential (the password as checked by
`check_password`; hashing is injective for our purposes, so the credential
is modelled by the password string itself), display name. -/
structure UserRec where
  id : Nat
  email : String
  password : String
  name : String
deriving DecidableEq, Repr

/-- The user table with its auto-increment counter. -/
structure UserDB where
  users : List UserRec
  nextUserId : Nat
deriving DecidableEq, Repr

/-- Users reachable through the registration endpoint: unique emails and
passwords of at least the minimum length (so in particular non-blank). -/
def UserDB.WF (udb : UserDB) : Prop :=
  (udb.users.map UserRec.email).Nodup ∧
  ∀ u ∈ udb.users, 5 ≤ u.password.length

instance (udb : UserDB) : Decidable udb.WF := by
  unfold UserDB.WF; infer_instance

/-- Modelled from the spec: the minimum password length enforced by the
user serializer (`user/serializers.py` is not under `src/`; the tests show
a 1-character password rejected and a 7-character one accepted). -/
def MIN_PASSWORD_LENGTH : Nat := 5

/-- Modelled from the spec: `normalize_email` lower-cases the domain part
of the address (the part after the last `@`). -/
def normalize_email (email : String) : String :=
  match (splitOnChar '@' email.data).reverse with
  | [] => email
  | [_] => email
  | domain :: rest =>
    ⟨(List.intercalate ['@'] rest.reverse) ++ '@' :: (domain.map Char.toLower)⟩

/-- Modelled from the spec: `POST /user/create`
(`CreateUserView` with `UserSerializer`; the serializer and the user
manager live in files not under `src/`).  "Registration: rejects empty
email, enforces a minimum password length, normalizes email domain casing,
returns the created profile without the password"; a duplicate email is a
validation error.  On any validation failure the response is 400 and no
user row is created; on success the body carries exactly the email and
name fields. -/
def register_user (udb : UserDB) (email password name : String) :
    HttpResult (List (String × String)) × UserDB :=
  if email = "" then
    (.badRequest [("email", "This field may not be blank.")], udb)
  else if udb.users.any (fun u => u.email == email) then
    (.badRequest [("email", "user with this email already exists.")], udb)
  else if password.length < MIN_PASSWORD_LENGTH then
    (.badRequest
      [("password", "Ensure this field has at least 5 characters.")], udb)
  else
    let usr : UserRec := ⟨udb.nextUserId, normalize_email email, password, name⟩
    (.created [("email", usr.email), ("name", usr.name)],
     { users := udb.users ++ [usr], nextUserId := udb.nextUserId + 1 })

/-- Modelled from the spec: the single generic message of the token
serializer's bad-credentials error ("fails with an authentication error on
mismatch, leaks no detail on which of email/password was wrong"). -/
def GENERIC_AUTH_ERROR : String :=
  "Unable to authenticate with provided credentials"

/-- The opaque token bound to a user. -/
def tokenFor (u : UserRec) : String := "token-" ++ toString u.id

/-- Modelled from the spec: `POST /user/token` (`CreateTokenView` with
`AuthTokenSerializer`; the serializer is not under `src/`).  "Token
issuance: validates credentials, fails with an authentication error on
mismatch, leaks no detail on which of email/password was wrong."  A
matching stored credential yields 200 with a token; anything else yields
400 whose body is one generic error, independent of the submitted pair. -/
def obtain_token (udb : UserDB) (email password : String) :
    HttpResult (List (String × String)) :=
  match udb.users.find? (fun u => u.email == email && u.password == password) with
  | some u => .ok [("token", tokenFor u)]
  | none => .badRequest [("non_field_errors", GENERIC_AUTH_ERROR)]

/-- Number of label rows of a given user with a given name ("the count of
that user's Tag/Ingredient rows ... for that name"). -/
def countLabel (labels : List Label) (u : Nat) (name : String) : Nat :=
  (labels.filter (fun t => t.user == u && t.name == name)).length

/-- Nested-label get-or-create contract relating a label table before and
after a recipe write that carried the name list `names`, with `linked` the
label ids the written recipe ends up linked to: existing user-owned names
are reused without growing the table, missing names are created exactly
once for that user, every listed name ends up linked through a user-owned
label, and no other user's rows are touched. -/
def gocSpec (oldLabels newLabels : List Label) (linked : List Nat) (u : Nat)
    (names : List String) : Prop :=
  (∀ name0 ∈ names, 0 < countLabel oldLabels u name0 →
    countLabel newLabels u name0 = countLabel oldLabels u name0) ∧
  (∀ name0 ∈ names, countLabel oldLabels u name0 = 0 →
    countLabel newLabels u name0 = 1) ∧
  (∀ name0 ∈ names, ∃ t ∈ newLabels, t.user = u ∧ t.name = name0 ∧ t.id ∈ linked) ∧
  (∀ tid ∈ linked, ∃ t ∈ newLabels, t.id = tid ∧ t.user = u) ∧
  (∀ u0 name0, u0 ≠ u → countLabel newLabels u0 name0 = countLabel oldLabels u0 name0)

/-- Sample rows: user 1 owns recipes 1 and 2, tags 10 and 11 and
ingredient 20; user 2 owns recipe 3, tag 12 and ingredient 21. -/
def sampleR1 : Recipe := ⟨1, 1, "Thai Curry", 22, 525, "d", "l", none, [10], [20]⟩

/-- Second sample recipe of user 1. -/
def sampleR2 : Recipe := ⟨2, 1, "Pork", 22, 525, "d", "l", none, [11], []⟩

/-- Sample recipe of user 2. -/
def sampleR3 : Recipe := ⟨3, 2, "Other", 22, 525, "d", "l", none, [12], [21]⟩

/-- A concrete database used to instantiate the theorems. -/
def sampleDB : DB :=
  { recipes := [sampleR1, sampleR2, sampleR3],
    tags := [⟨10, 1, "Tag1"⟩, ⟨11, 1, "Tag2"⟩, ⟨12, 2, "Tag1"⟩],
    ingredients := [⟨20, 1, "Ing1"⟩, ⟨21, 2, "Ing2"⟩],
    nextRecipeId := 4, nextTagId := 13, nextIngredientId := 22 }

/-- A concrete user table used to instantiate the theorems. -/
def sampleUserDB : UserDB :=
  { users := [⟨0, "test@example.com", "goodpass", "Test Name"⟩],
    nextUserId := 1 }

/-! ## Queryset lemmas -/

theorem mem_mtmJoinFilter {rs : List Recipe} {proj : Recipe → List Nat}
    {ids : List Int} {x : Recipe} :
    x ∈ mtmJoinFilter rs proj ids ↔
      x ∈ rs ∧ ∃ t ∈ proj x, Int.ofNat t ∈ ids := by
  constructor
  · intro h
    rcases List.mem_flatMap.mp h with ⟨a, ha, hx⟩
    rcases List.mem_map.mp hx with ⟨t, ht, heq⟩
    subst heq
    have h2 := List.mem_filter.mp ht
    exact ⟨ha, t, h2.1, by simpa using h2.2⟩
  · rintro ⟨hx, t, ht, hc⟩
    refine List.mem_flatMap.mpr ⟨x, hx, ?_⟩
    exact List.mem_map.mpr ⟨t, List.mem_filter.mpr ⟨ht, by simpa using hc⟩, rfl⟩

theorem mem_assignedJoin {labels : List Label} {recipes : List Recipe}
    {proj : Recipe → List Nat} {t : Label} :
    t ∈ assignedJoin labels recipes proj ↔
      t ∈ labels ∧ ∃ r ∈ recipes, t.id ∈ proj r := by
  constructor
  · intro h
    rcases List.mem_flatMap.mp h with ⟨a, ha, hx⟩
    rcases List.mem_map.mp hx with ⟨r, hr, heq⟩
    subst heq
    have h2 := List.mem_filter.mp hr
    exact ⟨ha, r, h2.1, by simpa using h2.2⟩
  · rintro ⟨ht, r, hr, hc⟩
    refine List.mem_flatMap.mpr ⟨t, ht, ?_⟩
    exact List.mem_map.mpr ⟨r, List.mem_filter.mpr ⟨hr, by simpa using hc⟩, rfl⟩

theorem mem_recipeFinal {q : List Recipe} {u : Nat} {x : Recipe} :
    x ∈ recipeFinal q u ↔ x ∈ q ∧ x.user = u := by
  simp [recipeFinal, List.mem_dedup, List.mem_insertionSort, List.mem_filter]

theorem nodup_recipeFinal {q : List Recipe} {u : Nat} :
    (recipeFinal q u).Nodup :=
  List.nodup_dedup _

theorem sorted_recipeFinal {q : List Recipe} {u : Nat} :
    (recipeFinal q u).Pairwise recipeDescId :=
  List.Pairwise.sublist (List.dedup_sublist _)
    (List.sorted_insertionSort recipeDescId _)

theorem mem_attrFinal {q : List Label} {u : Nat} {t : Label} :
    t ∈ attrFinal q u ↔ t ∈ q ∧ t.user = u := by
  simp [attrFinal, List.mem_dedup, List.mem_insertionSort, List.mem_filter]

theorem nodup_attrFinal {q : List Label} {u : Nat} :
    (attrFinal q u).Nodup :=
  List.nodup_dedup _

theorem sorted_attrFinal {q : List Label} {u : Nat} :
    (attrFinal q u).Pairwise labelDescName :=
  List.Pairwise.sublist (List.dedup_sublist _)
    (List.sorted_insertionSort labelDescName _)

theorem apply_mtm_filter_none {rs : List Recipe} {proj : Recipe → List Nat} :
    apply_mtm_filter rs proj none = some rs :=
  rfl

theorem apply_mtm_filter_empty {rs : List Recipe} {proj : Recipe → List Nat} :
    apply_mtm_filter rs proj (some "") = some rs :=
  rfl

theorem apply_mtm_filter_some {rs : List Recipe} {proj : Recipe → List Nat}
    {s : String} (h : s ≠ "") :
    apply_mtm_filter rs proj (some s) =
      (params_to_ints s).map (mtmJoinFilter rs proj) := by
  have h2 : ¬s.data.isEmpty = true := by
    intro hx
    apply h
    cases s with
    | mk d => cases List.isEmpty_iff.mp hx; rfl
  have ht : truthy (some s) = true := by
    simp only [truthy, Bool.not_eq_true']
    exact Bool.eq_false_iff.mpr h2
  simp [apply_mtm_filter, ht]

theorem apply_mtm_filter_subset {rs q : List Recipe} {proj : Recipe → List Nat}
    {p : Option String} (h : apply_mtm_filter rs proj p = some q) :
    ∀ x ∈ q, x ∈ rs := by
  unfold apply_mtm_filter at h
  by_cases ht : truthy p = true
  · rw [if_pos ht] at h
    cases hp : params_to_ints (p.getD "") with
    | none => rw [hp] at h; simp at h
    | some ids =>
      rw [hp] at h
      simp only [Option.map_some', Option.some.injEq] at h
      subst h
      exact fun x hx => (mem_mtmJoinFilter.mp hx).1
  · rw [if_neg ht] at h
    simp only [Option.some.injEq] at h
    subst h
    exact fun x hx => hx

/-- Every successful `RecipeViewSet.get_queryset` result is the
user-scoped, id-sorted, deduplicated view of some subset of the recipe
table. -/
theorem get_queryset_recipe_shape {db : DB} {u : Nat} {tp ip : Option String}
    {qs : List Recipe} (h : get_queryset_recipe db u tp ip = some qs) :
    ∃ q2, (∀ x ∈ q2, x ∈ db.recipes) ∧ qs = recipeFinal q2 u := by
  unfold get_queryset_recipe at h
  cases h1 : apply_mtm_filter db.recipes Recipe.tags tp with
  | none => rw [h1] at h; simp at h
  | some q1 =>
    rw [h1] at h
    simp only [Option.some_bind] at h
    cases h2 : apply_mtm_filter q1 Recipe.ingredients ip with
    | none => rw [h2] at h; simp at h
    | some q2 =>
      rw [h2] at h
      simp only [Option.map_some', Option.some.injEq] at h
      refine ⟨q2, fun x hx => ?_, h.symm⟩
      exact apply_mtm_filter_subset h1 x (apply_mtm_filter_subset h2 x hx)

theorem get_queryset_recipe_subset {db : DB} {u : Nat} {tp ip : Option String}
    {qs : List Recipe} (h : get_queryset_recipe db u tp ip = some qs) :
    ∀ x ∈ qs, x ∈ db.recipes ∧ x.user = u := by
  obtain ⟨q2, hsub, rfl⟩ := get_queryset_recipe_shape h
  intro x hx
  have := mem_recipeFinal.mp hx
  exact ⟨hsub x this.1, this.2⟩

/-- Under primary-key uniqueness, every successful queryset is strictly
descending in id. -/
theorem get_queryset_recipe_desc {db : DB} {u : Nat} {tp ip : Option String}
    {qs : List Recipe} (hWF : db.WF) (h : get_queryset_recipe db u tp ip = some qs) :
    qs.Pairwise (fun a b => b.id < a.id) := by
  obtain ⟨q2, hsub, rfl⟩ := get_queryset_recipe_shape h
  have hs : (recipeFinal q2 u).Pairwise recipeDescId := sorted_recipeFinal
  have hn : (recipeFinal q2 u).Nodup := nodup_recipeFinal
  have hmem : ∀ x ∈ recipeFinal q2 u, x ∈ db.recipes :=
    fun x hx => hsub x (mem_recipeFinal.mp hx).1
  have hinj := List.inj_on_of_nodup_map hWF.1
  refine (hs.and hn).imp_of_mem ?_
  intro a b ha hb hab
  refine lt_of_le_of_ne hab.1 ?_
  intro hid
  exact hab.2 (hinj (hmem a ha) (hmem b hb) hid.symm)

theorem get_queryset_recipe_both {db : DB} {u : Nat} {ts is : String}
    {tids iids : List Int} (hts : ts ≠ "") (his : is ≠ "")
    (hpt : params_to_ints ts = some tids) (hpi : params_to_ints is = some iids) :
    get_queryset_recipe db u (some ts) (some is) =
      some (recipeFinal
        (mtmJoinFilter (mtmJoinFilter db.recipes Recipe.tags tids)
          Recipe.ingredients iids) u) := by
  unfold get_queryset_recipe
  rw [apply_mtm_filter_some hts, hpt]
  simp only [Option.map_some', Option.some_bind]
  rw [apply_mtm_filter_some his, hpi]
  simp

theorem get_queryset_recipe_tags_only {db : DB} {u : Nat} {ts : String}
    {tids : List Int} (hts : ts ≠ "") (hpt : params_to_ints ts = some tids) :
    get_queryset_recipe db u (some ts) none =
      some (recipeFinal (mtmJoinFilter db.recipes Recipe.tags tids) u) := by
  unfold get_queryset_recipe
  rw [apply_mtm_filter_some hts, hpt]
  simp [apply_mtm_filter_none]

theorem get_queryset_recipe_ings_only {db : DB} {u : Nat} {is : String}
    {iids : List Int} (his : is ≠ "") (hpi : params_to_ints is = some iids) :
    get_queryset_recipe db u none (some is) =
      some (recipeFinal (mtmJoinFilter db.recipes Recipe.ingredients iids) u) := by
  unfold get_queryset_recipe
  rw [apply_mtm_filter_none]
  simp only [Option.some_bind]
  rw [apply_mtm_filter_some his, hpi]
  simp

/-- A member of a deduplicated list whose origin has pairwise-distinct
elements under an injective key occurs exactly once; a non-member occurs
zero times. -/
theorem count_dedup_of_nodup {α : Type} [DecidableEq α] {l : List α} {x : α} :
    l.dedup.count x = if x ∈ l then 1 else 0 := by
  by_cases h : x ∈ l
  · rw [if_pos h]
    exact List.count_eq_one_of_mem (List.nodup_dedup l) (List.mem_dedup.mpr h)
  · rw [if_neg h]
    exact List.count_eq_zero.mpr (fun hx => h (List.mem_dedup.mp hx))

theorem count_recipeFinal {q : List Recipe} {u : Nat} {x : Recipe} :
    (recipeFinal q u).count x =
      if x ∈ q ∧ x.user = u then 1 else 0 := by
  unfold recipeFinal
  rw [count_dedup_of_nodup]
  congr 1
  simp [List.mem_insertionSort, List.mem_filter]

theorem count_attrFinal {q : List Label} {u : Nat} {t : Label} :
    (attrFinal q u).count t =
      if t ∈ q ∧ t.user = u then 1 else 0 := by
  unfold attrFinal
  rw [count_dedup_of_nodup]
  congr 1
  simp [List.mem_insertionSort, List.mem_filter]

/-! ## Tag/ingredient queryset lemmas -/

theorem get_queryset_attr_default {labels : List Label} {recipes : List Recipe}
    {proj : Recipe → List Nat} {u : Nat} :
    get_queryset_attr labels recipes proj u none = some (attrFinal labels u) :=
  rfl

theorem get_queryset_attr_assigned {labels : List Label} {recipes : List Recipe}
    {proj : Recipe → List Nat} {u : Nat} :
    get_queryset_attr labels recipes proj u (some "1") =
      some (attrFinal (assignedJoin labels recipes proj) u) := by
  have h1 : pyInt "1" = some 1 := by decide
  simp [get_queryset_attr, h1]

/-- Every successful `BaseRecipeAttrViewSet.get_queryset` result is the
user-scoped, name-sorted, deduplicated view of some subset of the label
table. -/
theorem get_queryset_attr_shape {labels : List Label} {recipes : List Recipe}
    {proj : Recipe → List Nat} {u : Nat} {ap : Option String} {qs : List Label}
    (h : get_queryset_attr labels recipes proj u ap = some qs) :
    ∃ q, (∀ t ∈ q, t ∈ labels) ∧ qs = attrFinal q u := by
  unfold get_queryset_attr at h
  cases hv : (match ap with
              | none => some 0
              | some s => pyInt s) with
  | none => rw [hv] at h; simp at h
  | some v =>
    rw [hv] at h
    simp only [Option.some.injEq] at h
    by_cases hz : (v != 0) = true
    · rw [if_pos hz] at h
      exact ⟨_, fun t ht => (mem_assignedJoin.mp ht).1, h.symm⟩
    · rw [if_neg hz] at h
      exact ⟨labels, fun t ht => ht, h.symm⟩

theorem get_queryset_attr_subset {labels : List Label} {recipes : List Recipe}
    {proj : Recipe → List Nat} {u : Nat} {ap : Option String} {qs : List Label}
    (h : get_queryset_attr labels recipes proj u ap = some qs) :
    ∀ t ∈ qs, t ∈ labels ∧ t.user = u := by
  obtain ⟨q, hsub, rfl⟩ := get_queryset_attr_shape h
  intro t ht
  have := mem_attrFinal.mp ht
  exact ⟨hsub t this.1, this.2⟩

theorem get_queryset_attr_sorted {labels : List Label} {recipes : List Recipe}
    {proj : Recipe → List Nat} {u : Nat} {ap : Option String} {qs : List Label}
    (h : get_queryset_attr labels recipes proj u ap = some qs) :
    qs.Pairwise (fun a b => b.name ≤ a.name) := by
  obtain ⟨q, _, rfl⟩ := get_queryset_attr_shape h
  exact sorted_attrFinal

/-! ## Get-or-create lemmas -/

theorem countLabel_pos_iff {labels : List Label} {u : Nat} {name : String} :
    0 < countLabel labels u name ↔
      ∃ t ∈ labels, t.user = u ∧ t.name = name := by
  simp [countLabel, List.length_pos_iff_exists_mem, List.mem_filter]

theorem countLabel_append {l1 l2 : List Label} {u : Nat} {name : String} :
    countLabel (l1 ++ l2) u name = countLabel l1 u name + countLabel l2 u name := by
  simp [countLabel, List.filter_append]

/-- `get_or_create_label` case split: either a user-owned label with the
name exists (the table and counter are untouched and that label is
returned), or none exists (exactly the fresh label is appended). -/
theorem get_or_create_label_spec (labels : List Label) (next u : Nat)
    (name : String) :
    (get_or_create_label labels next u name).1.user = u ∧
    (get_or_create_label labels next u name).1.name = name ∧
    (get_or_create_label labels next u name).1 ∈
      (get_or_create_label labels next u name).2.1 ∧
    ((0 < countLabel labels u name ∧
        (get_or_create_label labels next u name).2.1 = labels) ∨
      (countLabel labels u name = 0 ∧
        (get_or_create_label labels next u name).2.1 =
          labels ++ [⟨next, u, name⟩])) := by
  unfold get_or_create_label
  cases hf : labels.find? (fun t => t.user == u && t.name == name) with
  | some t =>
    have hp := List.find?_some hf
    have hm := List.mem_of_find?_eq_some hf
    simp only [Bool.and_eq_true, beq_iff_eq] at hp
    refine ⟨hp.1, hp.2, hm, Or.inl ⟨?_, rfl⟩⟩
    exact countLabel_pos_iff.mpr ⟨t, hm, hp.1, hp.2⟩
  | none =>
    have hz : countLabel labels u name = 0 := by
      by_contra hq
      have := countLabel_pos_iff.mp (Nat.pos_of_ne_zero hq)
      obtain ⟨t, ht, hu, hn⟩ := this
      have := List.find?_eq_none.mp hf t ht
      simp [hu, hn] at this
    refine ⟨rfl, rfl, ?_, Or.inr ⟨hz, rfl⟩⟩
    simp

/-- Counting is unaffected by appending a label of a different
user/name pair. -/
theorem countLabel_append_single_ne {labels : List Label} {u0 next u : Nat}
    {name0 name : String} (h : ¬(u = u0 ∧ name = name0)) :
    countLabel (labels ++ [⟨next, u, name⟩]) u0 name0 = countLabel labels u0 name0 := by
  rw [countLabel_append]
  have hz : countLabel [(⟨next, u, name⟩ : Label)] u0 name0 = 0 := by
    by_cases hu : u = u0
    · have hn : name ≠ name0 := fun h2 => h ⟨hu, h2⟩
      simp [countLabel, hn]
    · simp [countLabel, hu]
  omega

theorem countLabel_append_single_eq {labels : List Label} {next u : Nat}
    {name : String} :
    countLabel (labels ++ [⟨next, u, name⟩]) u name = countLabel labels u name + 1 := by
  rw [countLabel_append]
  simp [countLabel, List.filter]

/-- The fold of the per-user get-or-create over a name list: the table
only grows; every new row is owned by `u` and named from the list; counts
of pairs other than `u`'s listed names are untouched; for each listed name
the count becomes one when it was zero and is untouched otherwise; each
listed name ends up linked through a `u`-owned label; every linked id
belongs to a `u`-owned label. -/
theorem get_or_create_labels_spec (u : Nat) :
    ∀ (names : List String) (labels : List Label) (next : Nat),
      labels.Sublist (get_or_create_labels labels next u names).2.1 ∧
      (∀ x ∈ (get_or_create_labels labels next u names).2.1,
        x ∈ labels ∨ (x.user = u ∧ x.name ∈ names)) ∧
      (∀ u0 name0, ¬(u0 = u ∧ name0 ∈ names) →
        countLabel (get_or_create_labels labels next u names).2.1 u0 name0 =
          countLabel labels u0 name0) ∧
      (∀ name0 ∈ names,
        countLabel (get_or_create_labels labels next u names).2.1 u name0 =
          if countLabel labels u name0 = 0 then 1 else countLabel labels u name0) ∧
      (∀ name0 ∈ names,
        ∃ t ∈ (get_or_create_labels labels next u names).2.1,
          t.user = u ∧ t.name = name0 ∧
          t.id ∈ (get_or_create_labels labels next u names).1) ∧
      (∀ tid ∈ (get_or_create_labels labels next u names).1,
        ∃ t ∈ (get_or_create_labels labels next u names).2.1,
          t.id = tid ∧ t.user = u) := by
  intro names
  induction names with
  | nil =>
    intro labels next
    refine ⟨List.Sublist.refl _, ?_, ?_, ?_, ?_, ?_⟩ <;>
      simp [get_or_create_labels]
  | cons n rest ih =>
    intro labels next
    obtain ⟨hu1, hn1, hmem1, hcase⟩ := get_or_create_label_spec labels next u n
    obtain ⟨ihsub, ihmem, ihother, ihcount, ihlink, ihown⟩ :=
      ih (get_or_create_label labels next u n).2.1
        (get_or_create_label labels next u n).2.2
    have e1 : (get_or_create_labels labels next u (n :: rest)).1 =
        (get_or_create_label labels next u n).1.id ::
          (get_or_create_labels (get_or_create_label labels next u n).2.1
            (get_or_create_label labels next u n).2.2 u rest).1 := rfl
    have e2 : (get_or_create_labels labels next u (n :: rest)).2.1 =
        (get_or_create_labels (get_or_create_label labels next u n).2.1
          (get_or_create_label labels next u n).2.2 u rest).2.1 := rfl
    have hsub1 : labels.Sublist (get_or_create_label labels next u n).2.1 := by
      rcases hcase with ⟨_, h⟩ | ⟨_, h⟩
      · rw [h]
      · rw [h]; exact List.sublist_append_left _ _
    have hcount1 : ∀ u0 name0, ¬(u0 = u ∧ name0 = n) →
        countLabel (get_or_create_label labels next u n).2.1 u0 name0 =
          countLabel labels u0 name0 := by
      intro u0 name0 hne
      rcases hcase with ⟨_, h⟩ | ⟨_, h⟩
      · rw [h]
      · rw [h]
        refine countLabel_append_single_ne ?_
        rintro ⟨h1, h2⟩
        exact hne ⟨h1.symm, h2.symm⟩
    rw [e1, e2]
    refine ⟨hsub1.trans ihsub, ?_, ?_, ?_, ?_, ?_⟩
    · intro x hx
      rcases ihmem x hx with hx1 | ⟨hxu, hxn⟩
      · rcases hcase with ⟨_, h⟩ | ⟨_, h⟩
        · rw [h] at hx1; exact Or.inl hx1
        · rw [h] at hx1
          rcases List.mem_append.mp hx1 with hx2 | hx2
          · exact Or.inl hx2
          · rcases List.mem_singleton.mp hx2 with rfl
            exact Or.inr ⟨rfl, List.mem_cons_self _ _⟩
      · exact Or.inr ⟨hxu, List.mem_cons_of_mem _ hxn⟩
    · intro u0 name0 hne
      have hne1 : ¬(u0 = u ∧ name0 = n) := by
        rintro ⟨h1, h2⟩
        exact hne ⟨h1, h2 ▸ List.mem_cons_self _ _⟩
      have hne2 : ¬(u0 = u ∧ name0 ∈ rest) := by
        rintro ⟨h1, h2⟩
        exact hne ⟨h1, List.mem_cons_of_mem _ h2⟩
      rw [ihother u0 name0 hne2, hcount1 u0 name0 hne1]
    · intro name0 hname0
      by_cases heq : name0 = n
      · subst heq
        rcases hcase with ⟨hpos, h⟩ | ⟨hzero, h⟩
        · have hne : countLabel labels u name0 ≠ 0 := by omega
          rw [if_neg hne]
          by_cases hn0 : name0 ∈ rest
          · rw [ihcount name0 hn0, h, if_neg hne]
          · rw [ihother u name0 (by rintro ⟨_, h2⟩; exact hn0 h2), h]
        · rw [if_pos hzero]
          have h1 : countLabel (get_or_create_label labels next u name0).2.1 u name0 = 1 := by
            rw [h, countLabel_append_single_eq, hzero]
          by_cases hn0 : name0 ∈ rest
          · rw [ihcount name0 hn0, h1]; simp
          · rw [ihother u name0 (by rintro ⟨_, h2⟩; exact hn0 h2), h1]
      · have hname1 : name0 ∈ rest := by
          rcases List.mem_cons.mp hname0 with h | h
          · exact absurd h heq
          · exact h
        rw [ihcount name0 hname1,
          hcount1 u name0 (by rintro ⟨_, h2⟩; exact heq h2)]
    · intro name0 hname0
      rcases List.mem_cons.mp hname0 with rfl | hname0
      · exact ⟨_, ihsub.subset hmem1, hu1, hn1, List.mem_cons_self _ _⟩
      · obtain ⟨t0, ht0, h1, h2, h3⟩ := ihlink name0 hname0
        exact ⟨t0, ht0, h1, h2, List.mem_cons_of_mem _ h3⟩
    · intro tid htid
      rcases List.mem_cons.mp htid with rfl | htid
      · exact ⟨_, ihsub.subset hmem1, rfl, hu1⟩
      · obtain ⟨t0, ht0, h1, h2⟩ := ihown tid htid
        exact ⟨t0, ht0, h1, h2⟩

/-! ## Detail-route lemmas -/

theorem get_object_eq_some {qs : List Recipe} {pk : Nat} {r : Recipe}
    (h : get_object qs pk = some r) : r ∈ qs ∧ r.id = pk := by
  refine ⟨List.mem_of_find?_eq_some h, ?_⟩
  have := List.find?_some h
  simpa using this

theorem get_object_none_cross_user {db : DB} {u : Nat} {tp ip : Option String}
    {qs : List Recipe} {pk : Nat} {r : Recipe}
    (hWF : db.WF) (hq : get_queryset_recipe db u tp ip = some qs)
    (hr : r ∈ db.recipes) (hpk : r.id = pk) (hne : r.user ≠ u) :
    get_object qs pk = none := by
  refine List.find?_eq_none.mpr ?_
  intro x hx hbe
  have hxx := get_queryset_recipe_subset hq x hx
  have hxid : x.id = r.id := by
    have : x.id = pk := by simpa using hbe
    omega
  have hxr : x = r := List.inj_on_of_nodup_map hWF.1 hxx.1 hr hxid
  exact hne (hxr ▸ hxx.2)

/-- When `get_object` resolves nothing, every detail action of the recipe
viewset answers 404 and leaves the database untouched. -/
theorem recipe_detail_notFound {db : DB} {u : Nat} {tp ip : Option String}
    {pk : Nat} {qs : List Recipe}
    (hq : get_queryset_recipe db u tp ip = some qs)
    (hnone : get_object qs pk = none) :
    recipe_retrieve db u tp ip pk = .notFound ∧
    (∀ pl, recipe_update db u tp ip pk pl = (.notFound, db)) ∧
    recipe_destroy db u tp ip pk = (.notFound, db) ∧
    (∀ p, recipe_upload_image db u tp ip pk p = (.notFound, db)) := by
  refine ⟨?_, ?_, ?_, ?_⟩
  · simp [recipe_retrieve, hq, hnone]
  · intro pl
    simp [recipe_update, hq, hnone]
  · simp [recipe_destroy, hq, hnone]
  · intro p
    simp [recipe_upload_image, hq, hnone]

theorem get_object_attr_none_cross_user {labels : List Label}
    {recipes : List Recipe} {proj : Recipe → List Nat} {u : Nat}
    {ap : Option String} {qs : List Label} {pk : Nat} {t : Label}
    (hnodup : (labels.map Label.id).Nodup)
    (hq : get_queryset_attr labels recipes proj u ap = some qs)
    (ht : t ∈ labels) (hpk : t.id = pk) (hne : t.user ≠ u) :
    get_object_attr qs pk = none := by
  refine List.find?_eq_none.mpr ?_
  intro x hx hbe
  have hxx := get_queryset_attr_subset hq x hx
  have hxid : x.id = t.id := by
    have : x.id = pk := by simpa using hbe
    omega
  have hxt : x = t := List.inj_on_of_nodup_map hnodup hxx.1 ht hxid
  exact hne (hxt ▸ hxx.2)

/-- When `get_object` resolves nothing, the label detail actions answer
404 and leave the table untouched. -/
theorem attr_detail_notFound {labels : List Label} {recipes : List Recipe}
    {proj : Recipe → List Nat} {u : Nat} {ap : Option String}
    {qs : List Label} {pk : Nat}
    (hq : get_queryset_attr labels recipes proj u ap = some qs)
    (hnone : get_object_attr qs pk = none) :
    (∀ nn, attr_update labels recipes proj u ap pk nn = (.notFound, labels)) ∧
    attr_destroy labels recipes proj u ap pk = (.notFound, labels) := by
  constructor
  · intro nn
    simp [attr_update, hq, hnone]
  · simp [attr_destroy, hq, hnone]

/-- The fold of the per-user get-or-create realises the nested-label
contract. -/
theorem gocSpec_of_fold (labels : List Label) (next u : Nat)
    (names : List String) :
    gocSpec labels (get_or_create_labels labels next u names).2.1
      (get_or_create_labels labels next u names).1 u names := by
  obtain ⟨_, _, hother, hcount, hlink, hown⟩ :=
    get_or_create_labels_spec u names labels next
  refine ⟨?_, ?_, hlink, hown, ?_⟩
  · intro name0 hn hpos
    rw [hcount name0 hn]
    have hz : countLabel labels u name0 ≠ 0 := by omega
    rw [if_neg hz]
  · intro name0 hn hz
    rw [hcount name0 hn, if_pos hz]
  · intro u0 name0 hne
    exact hother u0 name0 (by rintro ⟨h1, _⟩; exact hne h1)

/-! ## Claims -/

/-- C9: a token of the `tags` or `ingredients` query parameter that is not
a decimal integer makes `int(q)` in `_params_to_ints` raise an uncaught
`ValueError`: the queryset computation aborts and the request is an
uncaught-exception 500, not a field-level 400 client error; an
empty-string parameter is falsy, is treated as absent, and applies no
filter. -/
theorem claim_C9 (db : DB) (u : Nat) (tp ip : Option String) (s : String)
    (hs : s ≠ "") (hbad : params_to_ints s = none) :
    get_queryset_recipe db u (some s) ip = none ∧
    get_queryset_recipe db u tp (some s) = none ∧
    recipe_list db u (some s) ip = .serverError ∧
    (recipe_list db u (some s) ip).status = 500 ∧
    (recipe_list db u (some s) ip).status ≠ 400 ∧
    get_queryset_recipe db u (some "") ip = get_queryset_recipe db u none ip ∧
    get_queryset_recipe db u tp (some "") = get_queryset_recipe db u tp none := by
  have h1 : get_queryset_recipe db u (some s) ip = none := by
    unfold get_queryset_recipe
    rw [apply_mtm_filter_some hs, hbad]
    rfl
  have h2 : get_queryset_recipe db u tp (some s) = none := by
    unfold get_queryset_recipe
    cases h : apply_mtm_filter db.recipes Recipe.tags tp with
    | none => rfl
    | some q1 =>
      simp only [Option.some_bind]
      rw [apply_mtm_filter_some hs, hbad]
      rfl
  have h3 : recipe_list db u (some s) ip = .serverError := by
    unfold recipe_list
    rw [h1]
  refine ⟨h1, h2, h3, by rw [h3]; rfl, by rw [h3]; decide, ?_, ?_⟩
  · unfold get_queryset_recipe
    rw [apply_mtm_filter_empty, apply_mtm_filter_none]
  · unfold get_queryset_recipe
    cases h : apply_mtm_filter db.recipes Recipe.tags tp with
    | none => rfl
    | some q1 =>
      simp only [Option.some_bind]
      rw [apply_mtm_filter_empty, apply_mtm_filter_none]

/-- Instantiation of C9 at the failing inputs "abc" and "1,,2". -/
theorem claim_C9_witness :
    (("abc" : String) ≠ "" ∧ params_to_ints "abc" = none) ∧
    (("1,,2" : String) ≠ "" ∧ params_to_ints "1,,2" = none) ∧
    recipe_list sampleDB 1 (some "abc") none = .serverError ∧
    recipe_list sampleDB 1 (some "1,,2") none = .serverError ∧
    get_queryset_recipe sampleDB 1 (some "") none =
      get_queryset_recipe sampleDB 1 none none :=
  ⟨⟨by decide, by decide⟩, ⟨by decide, by decide⟩,
   (claim_C9 sampleDB 1 none none "abc" (by decide) (by decide)).2.2.1,
   (claim_C9 sampleDB 1 none none "1,,2" (by decide) (by decide)).2.2.1,
   (claim_C9 sampleDB 1 none none "abc" (by decide) (by decide)).2.2.2.2.2.1⟩

/-- C7: a successful authenticated recipe list is strictly descending in
id (`order_by('-id')`), and ids auto-increment, so a recipe created later
than another precedes it in the list. -/
theorem claim_C7 :
    (∀ (db : DB) (u : Nat) (tp ip : Option String) (qs : List Recipe),
      db.WF → recipe_list db u tp ip = .ok qs →
      qs.Pairwise (fun a b => b.id < a.id)) ∧
    (∀ (db : DB) (u1 u2 : Nat) (p1 p2 : RecipePayload) (r1 r2 : Recipe),
      (recipe_create db u1 p1).1 = .created r1 →
      (recipe_create (recipe_create db u1 p1).2 u2 p2).1 = .created r2 →
      r1.id < r2.id) := by
  constructor
  · intro db u tp ip qs hWF h
    unfold recipe_list at h
    revert h
    cases hq : get_queryset_recipe db u tp ip with
    | none => intro h; cases h
    | some qs0 =>
      intro h
      simp only [HttpResult.ok.injEq] at h
      subst h
      exact get_queryset_recipe_desc hWF hq
  · intro db u1 u2 p1 p2 r1 r2 h1 h2
    injection h1 with h1
    injection h2 with h2
    subst h1
    subst h2
    exact Nat.lt_succ_self _

/-- Instantiation of C7 at the sample database. -/
theorem claim_C7_witness :
    sampleDB.WF ∧
    ([sampleR2, sampleR1] : List Recipe).Pairwise (fun a b => b.id < a.id) :=
  ⟨by decide,
   claim_C7.1 sampleDB 1 none none [sampleR2, sampleR1] (by decide) (by decide)⟩

/-- C5: a token request whose email/password pair matches no stored
credential — a blank password included — yields a 400 carrying exactly the
one generic bad-credentials error, a constant that does not depend on
which of the two fields was wrong and carries no token; a matching pair
yields 200 with a token in the body. -/
theorem claim_C5 (udb : UserDB) (email password : String) :
    ((¬∃ u0 ∈ udb.users, u0.email = email ∧ u0.password = password) →
      obtain_token udb email password =
        .badRequest [("non_field_errors", GENERIC_AUTH_ERROR)] ∧
      (obtain_token udb email password).status = 400 ∧
      ∀ body, obtain_token udb email password = .ok body → False) ∧
    (udb.WF →
      obtain_token udb email "" =
        .badRequest [("non_field_errors", GENERIC_AUTH_ERROR)]) ∧
    ((∃ u0 ∈ udb.users, u0.email = email ∧ u0.password = password) →
      (obtain_token udb email password).status = 200 ∧
      ∀ body, obtain_token udb email password = .ok body →
        ∃ kv ∈ body, kv.1 = "token") := by
  have key : ∀ pw : String,
      (¬∃ u0 ∈ udb.users, u0.email = email ∧ u0.password = pw) →
      obtain_token udb email pw =
        .badRequest [("non_field_errors", GENERIC_AUTH_ERROR)] := by
    intro pw hno
    unfold obtain_token
    have hf : udb.users.find? (fun u0 => u0.email == email && u0.password == pw) = none := by
      refine List.find?_eq_none.mpr ?_
      intro x hx hpx
      simp only [Bool.and_eq_true, beq_iff_eq] at hpx
      exact hno ⟨x, hx, hpx.1, hpx.2⟩
    rw [hf]
  refine ⟨?_, ?_, ?_⟩
  · intro hno
    have h := key password hno
    refine ⟨h, by rw [h]; rfl, ?_⟩
    intro body hb
    rw [h] at hb
    cases hb
  · intro hWF
    refine key "" ?_
    rintro ⟨u0, hu0, _, hpw⟩
    have := hWF.2 u0 hu0
    rw [hpw] at this
    simp at this
  · rintro ⟨u0, hu0, he, hp⟩
    have hsome : (udb.users.find?
        (fun x => x.email == email && x.password == password)).isSome := by
      refine List.find?_isSome.mpr ⟨u0, hu0, ?_⟩
      simp [he, hp]
    obtain ⟨u1, hu1⟩ := Option.isSome_iff_exists.mp hsome
    have hok : obtain_token udb email password = .ok [("token", tokenFor u1)] := by
      unfold obtain_token
      rw [hu1]
    refine ⟨by rw [hok]; rfl, ?_⟩
    intro body hb
    rw [hok] at hb
    simp only [HttpResult.ok.injEq] at hb
    subst hb
    exact ⟨("token", tokenFor u1), List.mem_singleton.mpr rfl, rfl⟩

/-- Instantiation of C5 at the sample user table. -/
theorem claim_C5_witness :
    obtain_token sampleUserDB "test@example.com" "badpass" =
      .badRequest [("non_field_errors", GENERIC_AUTH_ERROR)] ∧
    obtain_token sampleUserDB "test@example.com" "" =
      .badRequest [("non_field_errors", GENERIC_AUTH_ERROR)] ∧
    (obtain_token sampleUserDB "test@example.com" "goodpass").status = 200 :=
  ⟨((claim_C5 sampleUserDB "test@example.com" "badpass").1 (by decide)).1,
   (claim_C5 sampleUserDB "test@example.com" "").2.1 (by decide),
   ((claim_C5 sampleUserDB "test@example.com" "goodpass").2.2 (by decide)).1⟩

/-- C4: registering with an email an existing user already has is a 400,
registering with a password below the minimum length is a 400 and creates
no user record, and a successful registration's body is exactly the email
and name fields — no password in any form. -/
theorem claim_C4 (udb : UserDB) (email password name : String) :
    ((∃ u0 ∈ udb.users, u0.email = email) →
      (register_user udb email password name).1.status = 400 ∧
      (register_user udb email password name).2 = udb) ∧
    (password.length < MIN_PASSWORD_LENGTH →
      (register_user udb email password name).1.status = 400 ∧
      (register_user udb email password name).2 = udb) ∧
    (∀ body, (register_user udb email password name).1 = .created body →
      body = [("email", normalize_email email), ("name", name)] ∧
      ∀ kv ∈ body, kv.1 ≠ "password") := by
  refine ⟨?_, ?_, ?_⟩
  · rintro ⟨u0, hu0, heq⟩
    by_cases he : email = ""
    · simp [register_user, he, HttpResult.status]
    · have hany : udb.users.any (fun x => x.email == email) = true :=
        List.any_eq_true.mpr ⟨u0, hu0, by simp [heq]⟩
      simp [register_user, he, hany, HttpResult.status]
  · intro hlen
    by_cases he : email = ""
    · simp [register_user, he, HttpResult.status]
    · cases hany : udb.users.any (fun x => x.email == email) with
      | true => simp [register_user, he, hany, HttpResult.status]
      | false => simp [register_user, he, hany, hlen, HttpResult.status]
  · intro body h
    unfold register_user at h
    split_ifs at h with h1 h2 h3
    all_goals first
      | (replace h : HttpResult.created
            [("email", normalize_email email), ("name", name)] =
            HttpResult.created body := h
         injection h with h
         subst h
         refine ⟨rfl, ?_⟩
         intro kv hkv
         rcases List.mem_cons.mp hkv with rfl | hkv
         · exact (by decide : ("email" : String) ≠ "password")
         · rcases List.mem_singleton.mp hkv with rfl
           exact (by decide : ("name" : String) ≠ "password"))
      | exact absurd h (by simp)

/-- Instantiation of C4 at the sample user table. -/
theorem claim_C4_witness :
    ((register_user sampleUserDB "test@example.com" "otherpass1" "N").1.status = 400 ∧
      (register_user sampleUserDB "test@example.com" "otherpass1" "N").2 = sampleUserDB) ∧
    ((register_user sampleUserDB "new@example.com" "abc" "N").1.status = 400 ∧
      (register_user sampleUserDB "new@example.com" "abc" "N").2 = sampleUserDB) ∧
    ([("email", "new@example.com"), ("name", "N")] =
        [("email", normalize_email "new@example.com"), ("name", "N")] ∧
      ∀ kv ∈ [("email", "new@example.com"), ("name", "N")], kv.1 ≠ "password") :=
  ⟨(claim_C4 sampleUserDB "test@example.com" "otherpass1" "N").1
      ⟨⟨0, "test@example.com", "goodpass", "Test Name"⟩, by decide, by decide⟩,
   (claim_C4 sampleUserDB "new@example.com" "abc" "N").2.1 (by decide),
   (claim_C4 sampleUserDB "new@example.com" "goodpass1" "N").2.2
      [("email", "new@example.com"), ("name", "N")] (by decide)⟩

/-- C2: with a parsed non-empty `tags` parameter the list result counts
each of the user's recipes having at least one listed tag exactly once and
every other recipe zero times; likewise for `ingredients`; with both
parameters the two conditions are AND-combined. -/
theorem claim_C2 (db : DB) (u : Nat) (ts is : String) (tids iids : List Int)
    (hts : ts ≠ "") (his : is ≠ "")
    (hpt : params_to_ints ts = some tids) (hpi : params_to_ints is = some iids) :
    (∀ qs, recipe_list db u (some ts) none = .ok qs →
      ∀ r : Recipe, qs.count r =
        if r ∈ db.recipes ∧ r.user = u ∧ ∃ t ∈ r.tags, Int.ofNat t ∈ tids
        then 1 else 0) ∧
    (∀ qs, recipe_list db u none (some is) = .ok qs →
      ∀ r : Recipe, qs.count r =
        if r ∈ db.recipes ∧ r.user = u ∧ ∃ t ∈ r.ingredients, Int.ofNat t ∈ iids
        then 1 else 0) ∧
    (∀ qs, recipe_list db u (some ts) (some is) = .ok qs →
      ∀ r : Recipe, qs.count r =
        if r ∈ db.recipes ∧ r.user = u ∧ (∃ t ∈ r.tags, Int.ofNat t ∈ tids) ∧
            (∃ t ∈ r.ingredients, Int.ofNat t ∈ iids)
        then 1 else 0) := by
  refine ⟨?_, ?_, ?_⟩
  · intro qs h r
    have hl : recipe_list db u (some ts) none =
        .ok (recipeFinal (mtmJoinFilter db.recipes Recipe.tags tids) u) := by
      unfold recipe_list
      rw [get_queryset_recipe_tags_only hts hpt]
    rw [hl] at h
    injection h with h
    subst h
    rw [count_recipeFinal]
    refine if_congr ?_ rfl rfl
    rw [mem_mtmJoinFilter]
    tauto
  · intro qs h r
    have hl : recipe_list db u none (some is) =
        .ok (recipeFinal (mtmJoinFilter db.recipes Recipe.ingredients iids) u) := by
      unfold recipe_list
      rw [get_queryset_recipe_ings_only his hpi]
    rw [hl] at h
    injection h with h
    subst h
    rw [count_recipeFinal]
    refine if_congr ?_ rfl rfl
    rw [mem_mtmJoinFilter]
    tauto
  · intro qs h r
    have hl : recipe_list db u (some ts) (some is) =
        .ok (recipeFinal
          (mtmJoinFilter (mtmJoinFilter db.recipes Recipe.tags tids)
            Recipe.ingredients iids) u) := by
      unfold recipe_list
      rw [get_queryset_recipe_both hts his hpt hpi]
    rw [hl] at h
    injection h with h
    subst h
    rw [count_recipeFinal]
    refine if_congr ?_ rfl rfl
    rw [mem_mtmJoinFilter, mem_mtmJoinFilter]
    tauto

/-- Instantiation of C2 at the sample database: filtering user 1's
recipes on tags 10,11 returns each matching recipe once and the
tag-less recipe of user 2 not at all. -/
theorem claim_C2_witness :
    ("10,11" : String) ≠ "" ∧ params_to_ints "10,11" = some [10, 11] ∧
    (recipe_list sampleDB 1 (some "10,11") none = .ok [sampleR2, sampleR1] ∧
      [sampleR2, sampleR1].count sampleR1 =
        if sampleR1 ∈ sampleDB.recipes ∧ sampleR1.user = 1 ∧
            ∃ t ∈ sampleR1.tags, Int.ofNat t ∈ ([10, 11] : List Int)
        then 1 else 0) :=
  ⟨by decide, by decide, by decide,
   (claim_C2 sampleDB 1 "10,11" "20" [10, 11] [20]
      (by decide) (by decide) (by decide) (by decide)).1
     [sampleR2, sampleR1] (by decide) sampleR1⟩

/-- C8: tag/ingredient lists are sorted reverse-alphabetically by name,
and with `assigned_only=1` the result counts each of the user's labels
attached to at least one recipe exactly once and every other label zero
times. -/
theorem claim_C8 :
    (∀ (labels : List Label) (recipes : List Recipe) (proj : Recipe → List Nat)
        (u : Nat) (ap : Option String) (qs : List Label),
      attr_list labels recipes proj u ap = .ok qs →
      qs.Pairwise (fun a b => b.name ≤ a.name)) ∧
    (∀ (labels : List Label) (recipes : List Recipe) (proj : Recipe → List Nat)
        (u : Nat) (qs : List Label),
      attr_list labels recipes proj u (some "1") = .ok qs →
      ∀ t : Label, qs.count t =
        if t ∈ labels ∧ t.user = u ∧ ∃ r ∈ recipes, t.id ∈ proj r
        then 1 else 0) := by
  constructor
  · intro labels recipes proj u ap qs h
    unfold attr_list at h
    revert h
    cases hq : get_queryset_attr labels recipes proj u ap with
    | none => intro h; cases h
    | some qs0 =>
      intro h
      injection h with h
      subst h
      exact get_queryset_attr_sorted hq
  · intro labels recipes proj u qs h t
    have hl : attr_list labels recipes proj u (some "1") =
        .ok (attrFinal (assignedJoin labels recipes proj) u) := by
      unfold attr_list
      rw [get_queryset_attr_assigned]
    rw [hl] at h
    injection h with h
    subst h
    rw [count_attrFinal]
    refine if_congr ?_ rfl rfl
    rw [mem_assignedJoin]
    tauto

/-- C10: `get_queryset` applies the `tags`/`ingredients` filters on every
action, not only `list`: a detail request (retrieve, update, delete,
upload-image) aimed at the user's own recipe but carrying a parsed filter
parameter the recipe does not match resolves against the filtered queryset
and answers 404, leaving the database untouched. -/
theorem claim_C10 (db : DB) (u : Nat) (r : Recipe) (pk : Nat)
    (hWF : db.WF) (hr : r ∈ db.recipes) (hu : r.user = u) (hpk : r.id = pk) :
    (∀ (ts : String) (tids : List Int), ts ≠ "" →
      params_to_ints ts = some tids →
      (∀ t ∈ r.tags, Int.ofNat t ∉ tids) →
      recipe_retrieve db u (some ts) none pk = .notFound ∧
      (∀ pl, recipe_update db u (some ts) none pk pl = (.notFound, db)) ∧
      recipe_destroy db u (some ts) none pk = (.notFound, db) ∧
      (∀ p, recipe_upload_image db u (some ts) none pk p = (.notFound, db))) ∧
    (∀ (is : String) (iids : List Int), is ≠ "" →
      params_to_ints is = some iids →
      (∀ t ∈ r.ingredients, Int.ofNat t ∉ iids) →
      recipe_retrieve db u none (some is) pk = .notFound ∧
      (∀ pl, recipe_update db u none (some is) pk pl = (.notFound, db)) ∧
      recipe_destroy db u none (some is) pk = (.notFound, db) ∧
      (∀ p, recipe_upload_image db u none (some is) pk p = (.notFound, db))) := by
  constructor
  · intro ts tids hts hpt hmiss
    have hq := @get_queryset_recipe_tags_only db u ts tids hts hpt
    have hnone : get_object
        (recipeFinal (mtmJoinFilter db.recipes Recipe.tags tids) u) pk = none := by
      refine List.find?_eq_none.mpr ?_
      intro x hx hbe
      have hm := mem_recipeFinal.mp hx
      have hj := mem_mtmJoinFilter.mp hm.1
      have hxid : x.id = r.id := by
        have : x.id = pk := by simpa using hbe
        omega
      have hxr : x = r := List.inj_on_of_nodup_map hWF.1 hj.1 hr hxid
      obtain ⟨t, htm, htin⟩ := hj.2
      exact hmiss t (hxr ▸ htm) htin
    exact recipe_detail_notFound hq hnone
  · intro is iids his hpi hmiss
    have hq := @get_queryset_recipe_ings_only db u is iids his hpi
    have hnone : get_object
        (recipeFinal (mtmJoinFilter db.recipes Recipe.ingredients iids) u) pk = none := by
      refine List.find?_eq_none.mpr ?_
      intro x hx hbe
      have hm := mem_recipeFinal.mp hx
      have hj := mem_mtmJoinFilter.mp hm.1
      have hxid : x.id = r.id := by
        have : x.id = pk := by simpa using hbe
        omega
      have hxr : x = r := List.inj_on_of_nodup_map hWF.1 hj.1 hr hxid
      obtain ⟨t, htm, htin⟩ := hj.2
      exact hmiss t (hxr ▸ htm) htin
    exact recipe_detail_notFound hq hnone

/-- Instantiation of C10 at the sample database: recipe 1 belongs to
user 1 and carries tag 10 only, so a retrieve of it with `tags=11`
answers 404. -/
theorem claim_C10_witness :
    sampleDB.WF ∧
    recipe_retrieve sampleDB 1 (some "11") none 1 = .notFound ∧
    recipe_destroy sampleDB 1 (some "11") none 1 = (.notFound, sampleDB) :=
  ⟨by decide,
   ((claim_C10 sampleDB 1 sampleR1 1 (by decide) (by decide) (by decide)
       (by decide)).1 "11" [11] (by decide) (by decide) (by decide)).1,
   ((claim_C10 sampleDB 1 sampleR1 1 (by decide) (by decide) (by decide)
       (by decide)).1 "11" [11] (by decide) (by decide) (by decide)).2.2.1⟩

/-- C6: an upload-image request resolving a user-owned recipe answers 400
and leaves the recipe untouched when the payload does not decode as an
image, and answers 200, replaces the stored image, and makes the image
retrievable through a subsequent retrieve of the recipe when it does. -/
theorem claim_C6 (db : DB) (u : Nat) (tp ip : Option String) (pk : Nat)
    (p : ImagePayload) (qs : List Recipe) (r : Recipe)
    (hWF : db.WF)
    (hq : get_queryset_recipe db u tp ip = some qs)
    (hobj : get_object qs pk = some r) :
    (p.decodable = false →
      recipe_upload_image db u tp ip pk p =
        (.badRequest [("image", "Upload a valid image.")], db) ∧
      (recipe_upload_image db u tp ip pk p).1.status = 400) ∧
    (p.decodable = true →
      (recipe_upload_image db u tp ip pk p).1 =
        .ok { r with image := some p.bytes } ∧
      (recipe_upload_image db u tp ip pk p).1.status = 200 ∧
      { r with image := some p.bytes } ∈
        (recipe_upload_image db u tp ip pk p).2.recipes ∧
      recipe_retrieve (recipe_upload_image db u tp ip pk p).2 u none none pk =
        .ok { r with image := some p.bytes }) := by
  have hro := get_object_eq_some hobj
  have hru := get_queryset_recipe_subset hq r hro.1
  constructor
  · intro hdec
    have he : recipe_upload_image db u tp ip pk p =
        (.badRequest [("image", "Upload a valid image.")], db) := by
      simp [recipe_upload_image, hq, hobj, hdec]
    exact ⟨he, by rw [he]; rfl⟩
  · intro hdec
    set r2 : Recipe := { r with image := some p.bytes } with hr2
    set m : List Recipe :=
      db.recipes.map (fun x => if x.id == r.id then r2 else x) with hm
    have he : recipe_upload_image db u tp ip pk p =
        (.ok r2, { db with recipes := m }) := by
      simp [recipe_upload_image, hq, hobj, hdec, hm, hr2]
    rw [he]
    have hmem : r2 ∈ m :=
      List.mem_map.mpr ⟨r, hru.1, by simp⟩
    refine ⟨rfl, rfl, hmem, ?_⟩
    have huniq : ∀ x ∈ m, x.id = pk → x = r2 := by
      intro x hx hxid
      obtain ⟨y, hy, hxy⟩ := List.mem_map.mp hx
      by_cases hyr : y.id = r.id
      · rw [← hxy]
        simp [hyr]
      · have hxey : x = y := by
          rw [← hxy]
          simp [hyr]
        rw [hxey] at hxid
        have : r.id = pk := hro.2
        exact absurd (by omega : y.id = r.id) hyr
    have hr2u : r2.user = u := hru.2
    have hr2id : r2.id = pk := hro.2
    have hfind : get_object (recipeFinal m u) pk = some r2 := by
      have hsome : (get_object (recipeFinal m u) pk).isSome := by
        refine List.find?_isSome.mpr ?_
        refine ⟨r2, mem_recipeFinal.mpr ⟨hmem, hr2u⟩, by simpa using hr2id⟩
      obtain ⟨x, hx⟩ := Option.isSome_iff_exists.mp hsome
      have hx1 := List.mem_of_find?_eq_some hx
      have hx2 : x.id = pk := by simpa using List.find?_some hx
      have hx3 := (mem_recipeFinal.mp hx1).1
      rw [hx, huniq x hx3 hx2]
    have hq2 : get_queryset_recipe { db with recipes := m } u none none =
        some (recipeFinal m u) := rfl
    show recipe_retrieve { db with recipes := m } u none none pk = .ok r2
    unfold recipe_retrieve
    rw [hq2]
    simp only [hfind]

/-- C1 counterexample: the claim asserts that a retrieve by user A
targeting B's tag answers 404, but `BaseRecipeAttrViewSet` mixes in only
`DestroyModelMixin`, `UpdateModelMixin` and `ListModelMixin` — no
`RetrieveModelMixin` — so a detail GET on a tag is dispatched to no
handler and answers 405 Method Not Allowed: here user 1 retrieves tag 12,
owned by user 2, and gets 405, not 404. -/
theorem claim_C1_counterexample :
    ((⟨12, 2, "Tag1"⟩ : Label) ∈ sampleDB.tags ∧ (2 : Nat) ≠ 1) ∧
    attr_retrieve sampleDB.tags 1 12 = .methodNotAllowed ∧
    (attr_retrieve sampleDB.tags 1 12).status = 405 ∧
    (attr_retrieve sampleDB.tags 1 12).status ≠ 404 := by
  decide

/-- C1 (amended): list results contain only the requesting user's records
for all three resources; a recipe retrieve/update/delete, or a tag or
ingredient update/delete, aimed by A at the id of a record owned by
another user answers 404 — not 403 — and leaves the record untouched; a
tag/ingredient retrieve is answered 405 for everyone, since the label
viewsets expose no retrieve action. -/
theorem claim_C1_amended (db : DB) (A : Nat) (hWF : db.WF) :
    (∀ (tp ip : Option String) (qs : List Recipe),
      recipe_list db A tp ip = .ok qs → ∀ r ∈ qs, r.user = A) ∧
    (∀ (labels : List Label) (recipes : List Recipe) (proj : Recipe → List Nat)
        (ap : Option String) (qs : List Label),
      attr_list labels recipes proj A ap = .ok qs → ∀ t ∈ qs, t.user = A) ∧
    (∀ (tp ip : Option String) (qs : List Recipe) (r : Recipe),
      get_queryset_recipe db A tp ip = some qs →
      r ∈ db.recipes → r.user ≠ A →
      recipe_retrieve db A tp ip r.id = .notFound ∧
      (recipe_retrieve db A tp ip r.id).status = 404 ∧
      (recipe_retrieve db A tp ip r.id).status ≠ 403 ∧
      (∀ pl, recipe_update db A tp ip r.id pl = (.notFound, db)) ∧
      recipe_destroy db A tp ip r.id = (.notFound, db)) ∧
    (∀ (labels : List Label) (recipes : List Recipe) (proj : Recipe → List Nat)
        (ap : Option String) (qs : List Label) (t : Label),
      (labels.map Label.id).Nodup →
      get_queryset_attr labels recipes proj A ap = some qs →
      t ∈ labels → t.user ≠ A →
      (∀ nn, attr_update labels recipes proj A ap t.id nn = (.notFound, labels)) ∧
      attr_destroy labels recipes proj A ap t.id = (.notFound, labels)) ∧
    (∀ (labels : List Label) (pk : Nat),
      attr_retrieve labels A pk = .methodNotAllowed ∧
      (attr_retrieve labels A pk).status = 405) := by
  refine ⟨?_, ?_, ?_, ?_, ?_⟩
  · intro tp ip qs h
    unfold recipe_list at h
    revert h
    cases hq : get_queryset_recipe db A tp ip with
    | none => intro h; cases h
    | some qs0 =>
      intro h
      injection h with h
      subst h
      intro r hr
      exact (get_queryset_recipe_subset hq r hr).2
  · intro labels recipes proj ap qs h
    unfold attr_list at h
    revert h
    cases hq : get_queryset_attr labels recipes proj A ap with
    | none => intro h; cases h
    | some qs0 =>
      intro h
      injection h with h
      subst h
      intro t ht
      exact (get_queryset_attr_subset hq t ht).2
  · intro tp ip qs r hq hr hne
    have hnone := get_object_none_cross_user hWF hq hr rfl hne
    obtain ⟨h1, h2, h3, _⟩ := recipe_detail_notFound hq hnone
    exact ⟨h1, by rw [h1]; rfl, by rw [h1]; decide, h2, h3⟩
  · intro labels recipes proj ap qs t hnodup hq ht hne
    have hnone := get_object_attr_none_cross_user hnodup hq ht rfl hne
    exact attr_detail_notFound hq hnone
  · intro labels pk
    exact ⟨rfl, rfl⟩

/-- Instantiation of the amended C1 at the sample database: user 1
cannot see, update or delete user 2's recipe 3 or tag 12. -/
theorem claim_C1_witness :
    sampleDB.WF ∧
    recipe_retrieve sampleDB 1 none none 3 = .notFound ∧
    recipe_update sampleDB 1 none none 3 {} = (.notFound, sampleDB) ∧
    recipe_destroy sampleDB 1 none none 3 = (.notFound, sampleDB) ∧
    attr_update sampleDB.tags sampleDB.recipes Recipe.tags 1 none 12 "X" =
      (.notFound, sampleDB.tags) ∧
    attr_destroy sampleDB.tags sampleDB.recipes Recipe.tags 1 none 12 =
      (.notFound, sampleDB.tags) :=
  ⟨by decide,
   ((claim_C1_amended sampleDB 1 (by decide)).2.2.1 none none
      (recipeFinal sampleDB.recipes 1) sampleR3 (by decide) (by decide)
      (by decide)).1,
   ((claim_C1_amended sampleDB 1 (by decide)).2.2.1 none none
      (recipeFinal sampleDB.recipes 1) sampleR3 (by decide) (by decide)
      (by decide)).2.2.2.1 {},
   ((claim_C1_amended sampleDB 1 (by decide)).2.2.1 none none
      (recipeFinal sampleDB.recipes 1) sampleR3 (by decide) (by decide)
      (by decide)).2.2.2.2,
   ((claim_C1_amended sampleDB 1 (by decide)).2.2.2.1 sampleDB.tags
      sampleDB.recipes Recipe.tags none (attrFinal sampleDB.tags 1)
      ⟨12, 2, "Tag1"⟩ (by decide) (by decide) (by decide) (by decide)).1 "X",
   ((claim_C1_amended sampleDB 1 (by decide)).2.2.2.1 sampleDB.tags
      sampleDB.recipes Recipe.tags none (attrFinal sampleDB.tags 1)
      ⟨12, 2, "Tag1"⟩ (by decide) (by decide) (by decide) (by decide)).2⟩

/-- C3: a recipe create — or an update whose payload carries a name
list — reuses the requesting user's existing label of each listed name
without growing that user's label rows, creates exactly one user-owned
label for each name the user does not have, links every listed name
through a user-owned label, and never touches or reuses other users'
labels. -/
theorem claim_C3 (db : DB) (u : Nat) :
    (∀ (p : RecipePayload) (ru : Recipe),
      (recipe_create db u p).1 = .created ru →
      gocSpec db.tags (recipe_create db u p).2.tags ru.tags u p.tagNames ∧
      gocSpec db.ingredients (recipe_create db u p).2.ingredients
        ru.ingredients u p.ingredientNames) ∧
    (∀ (tp ip : Option String) (pk : Nat) (up : RecipeUpdatePayload)
        (r2 : Recipe) (names : List String),
      up.tagNames = some names →
      (recipe_update db u tp ip pk up).1 = .ok r2 →
      gocSpec db.tags (recipe_update db u tp ip pk up).2.tags r2.tags u names) ∧
    (∀ (tp ip : Option String) (pk : Nat) (up : RecipeUpdatePayload)
        (r2 : Recipe) (names : List String),
      up.ingredientNames = some names →
      (recipe_update db u tp ip pk up).1 = .ok r2 →
      gocSpec db.ingredients (recipe_update db u tp ip pk up).2.ingredients
        r2.ingredients u names) := by
  refine ⟨?_, ?_, ?_⟩
  · intro p ru hc
    replace hc : HttpResult.created
        (⟨db.nextRecipeId, u, p.title, p.time_minutes, p.price, p.description,
          p.link, none,
          (get_or_create_labels db.tags db.nextTagId u p.tagNames).1,
          (get_or_create_labels db.ingredients db.nextIngredientId u
            p.ingredientNames).1⟩ : Recipe) = .created ru := hc
    injection hc with hc
    subst hc
    exact ⟨gocSpec_of_fold db.tags db.nextTagId u p.tagNames,
           gocSpec_of_fold db.ingredients db.nextIngredientId u p.ingredientNames⟩
  · intro tp ip pk up r2 names hnames hok
    cases hq : get_queryset_recipe db u tp ip with
    | none => simp [recipe_update, hq] at hok
    | some qs =>
      cases hobj : get_object qs pk with
      | none => simp [recipe_update, hq, hobj] at hok
      | some r =>
        have e1 : (recipe_update db u tp ip pk up).2.tags =
            (get_or_create_labels db.tags db.nextTagId u names).2.1 := by
          simp [recipe_update, hq, hobj, hnames]
        have e2 : r2.tags = (get_or_create_labels db.tags db.nextTagId u names).1 := by
          have hok2 := hok
          simp only [recipe_update, hq, hobj, hnames, HttpResult.ok.injEq] at hok2
          rw [← hok2]
        rw [e1, e2]
        exact gocSpec_of_fold db.tags db.nextTagId u names
  · intro tp ip pk up r2 names hnames hok
    cases hq : get_queryset_recipe db u tp ip with
    | none => simp [recipe_update, hq] at hok
    | some qs =>
      cases hobj : get_object qs pk with
      | none => simp [recipe_update, hq, hobj] at hok
      | some r =>
        have e1 : (recipe_update db u tp ip pk up).2.ingredients =
            (get_or_create_labels db.ingredients db.nextIngredientId u names).2.1 := by
          simp [recipe_update, hq, hobj, hnames]
        have e2 : r2.ingredients =
            (get_or_create_labels db.ingredients db.nextIngredientId u names).1 := by
          have hok2 := hok
          simp only [recipe_update, hq, hobj, hnames, HttpResult.ok.injEq] at hok2
          rw [← hok2]
        rw [e1, e2]
        exact gocSpec_of_fold db.ingredients db.nextIngredientId u names

/-- Instantiation of C3 at the sample database: creating a recipe for
user 1 with tag names Tag1 (owned) and New (fresh) reuses tag 10 and
creates tag 13. -/
theorem claim_C3_witness :
    (recipe_create sampleDB 1 ⟨"t", 1, 1, "d", "l", ["Tag1", "New"], ["Ing1"]⟩).1 =
      .created ⟨4, 1, "t", 1, 1, "d", "l", none, [10, 13], [20]⟩ ∧
    gocSpec sampleDB.tags
      (recipe_create sampleDB 1 ⟨"t", 1, 1, "d", "l", ["Tag1", "New"], ["Ing1"]⟩).2.tags
      [10, 13] 1 ["Tag1", "New"] :=
  ⟨by decide,
   ((claim_C3 sampleDB 1).1 ⟨"t", 1, 1, "d", "l", ["Tag1", "New"], ["Ing1"]⟩
      ⟨4, 1, "t", 1, 1, "d", "l", none, [10, 13], [20]⟩ (by decide)).1⟩

/-- Instantiation of C6 at the sample database. -/
theorem claim_C6_witness :
    sampleDB.WF ∧
    recipe_upload_image sampleDB 1 none none 1 ⟨"notanimage", false⟩ =
      (.badRequest [("image", "Upload a valid image.")], sampleDB) ∧
    (recipe_upload_image sampleDB 1 none none 1 ⟨"JPEGDATA", true⟩).1 =
      .ok { sampleR1 with image := some "JPEGDATA" } ∧
    recipe_retrieve (recipe_upload_image sampleDB 1 none none 1 ⟨"JPEGDATA", true⟩).2
      1 none none 1 = .ok { sampleR1 with image := some "JPEGDATA" } :=
  ⟨by decide,
   ((claim_C6 sampleDB 1 none none 1 ⟨"notanimage", false⟩
       (recipeFinal sampleDB.recipes 1) sampleR1
       (by decide) (by decide) (by decide)).1 (by decide)).1,
   ((claim_C6 sampleDB 1 none none 1 ⟨"JPEGDATA", true⟩
       (recipeFinal sampleDB.recipes 1) sampleR1
       (by decide) (by decide) (by decide)).2 (by decide)).1,
   ((claim_C6 sampleDB 1 none none 1 ⟨"JPEGDATA", true⟩
       (recipeFinal sampleDB.recipes 1) sampleR1
       (by decide) (by decide) (by decide)).2 (by decide)).2.2.2⟩

/-- Instantiation of C8 at the sample database: user 1's tag list is
name-descending, and with `assigned_only=1` each assigned tag appears
exactly once. -/
theorem claim_C8_witness :
    attr_list sampleDB.tags sampleDB.recipes Recipe.tags 1 none =
      .ok [⟨11, 1, "Tag2"⟩, ⟨10, 1, "Tag1"⟩] ∧
    ([(⟨11, 1, "Tag2"⟩ : Label), ⟨10, 1, "Tag1"⟩].Pairwise
      (fun a b => b.name ≤ a.name)) ∧
    ([(⟨11, 1, "Tag2"⟩ : Label), ⟨10, 1, "Tag1"⟩].count ⟨10, 1, "Tag1"⟩ =
      if (⟨10, 1, "Tag1"⟩ : Label) ∈ sampleDB.tags ∧
          (⟨10, 1, "Tag1"⟩ : Label).user = 1 ∧
          ∃ r ∈ sampleDB.recipes, (10 : Nat) ∈ r.tags
      then 1 else 0) :=
  ⟨by decide,
   claim_C8.1 sampleDB.tags sampleDB.recipes Recipe.tags 1 none
     [⟨11, 1, "Tag2"⟩, ⟨10, 1, "Tag1"⟩] (by decide),
   claim_C8.2 sampleDB.tags sampleDB.recipes Recipe.tags 1
     [⟨11, 1, "Tag2"⟩, ⟨10, 1, "Tag1"⟩] (by decide) ⟨10, 1, "Tag1"⟩⟩

end RecipeApp
